import Mathlib

/-!
Verification development for a reference-counted shared/weak pointer pair
(`SharedPtr<T>` / `WeakPtr<T>` in `src/shared_pointer.hpp`).

The embedding has two layers.

1. A heap-level model: control blocks (`Counter`) live in a small heap
   (`Heap`, a list of allocation slots indexed by address); handles hold an
   optional object pointer and an optional control-block address, exactly as
   the C++ handles hold `T* ptr_` and `Counter* counter`.  Each C++ member
   function is translated to a function threading the heap.  Operations whose
   C++ execution is undefined (dereferencing a null control pointer, touching
   a freed block, reading an uninitialized member) return `none`.

2. A per-ownership-group trace machine (`GState`, `Op`, `step`) for the
   temporal claims: it tracks the control block's two counters together with
   the number of live strong and weak handles attached to the group, and
   counts object-destruction and block-free events.

Counts are `size_t` in the source.  Increments are modelled as plain `Nat`
successor (a count can never reach `2 ^ 64` since every live handle occupies
distinct memory); the one decrement the source leaves unguarded
(`WeakPtr::Reset`) is modelled with the exact `size_t` wrap-around, since its
underflow behaviour is what claim C7 is about.
-/

/-- Modulus of the C++ `size_t` type on the target platform. -/
def size_t_mod : Nat := 2 ^ 64

/-- The C++ `--x` on a `size_t`: wraps from `0` to `2 ^ 64 - 1`. -/
def sizetDec (x : Nat) : Nat := (x + (size_t_mod - 1)) % size_t_mod

/-- The `SharedPtr<T>::Counter` control block: `size_t shared_count_` and
`size_t weak_count_` (source lines 10-13). -/
structure Counter where
  shared_count_ : Nat
  weak_count_ : Nat
deriving DecidableEq

/-- A heap of control-block slots.  The address of a slot is its index; a
slot holding `none` has been freed (`delete counter`). -/
abbrev Heap := List (Option Counter)

/-- Dereference a control-block address: `none` when the address is out of
range or the block was freed (either access is undefined behaviour in the
source). -/
def Heap.read : Heap → Nat → Option Counter
  | [], _ => none
  | x :: _, 0 => x
  | _ :: h, n + 1 => Heap.read h n

/-- Overwrite the slot at an address (no-op when out of range). -/
def Heap.write : Heap → Nat → Option Counter → Heap
  | [], _, _ => []
  | _ :: h, 0, c => c :: h
  | x :: h, n + 1, c => x :: Heap.write h n c

/-- Allocate a fresh control block (`new Counter`), returning the new heap
and the address of the block. -/
def Heap.alloc (h : Heap) (c : Counter) : Heap × Nat :=
  (h ++ [some c], h.length)

/-- Free the block at an address (`delete counter`). -/
def Heap.free (h : Heap) (a : Nat) : Heap := h.write a none

/-- Model of `SharedPtr<T>`: the raw object pointer `ptr_` (an abstract
address, `none` for `nullptr`) and the control-block pointer `counter`. -/
structure SharedPtrS where
  ptr_ : Option Nat
  counter : Option Nat
deriving DecidableEq

/-- Model of `WeakPtr<T>`: same representation as `SharedPtrS`. -/
structure WeakPtrS where
  ptr_ : Option Nat
  counter : Option Nat
deriving DecidableEq

/-- Teardown events a release can perform: destroying the managed object
(`delete ptr_` with a non-null pointer) and freeing the control block
(`delete counter`). -/
inductive Event where
  | destroyObject
  | freeBlock
deriving DecidableEq

namespace SharedPtr

/-- `SharedPtr(T* ptr)` (lines 20-23): allocates a fresh control block with
`shared_count_ = ptr ? 1 : 0` and `weak_count_ = 0`. -/
def fromRaw (h : Heap) (p : Option Nat) : Heap × SharedPtrS :=
  let r := h.alloc ⟨if p.isSome then 1 else 0, 0⟩
  (r.1, ⟨p, some r.2⟩)

/-- `SharedPtr(const SharedPtr& other)` (lines 25-28): copies both pointers
and performs `++counter->shared_count_` with no null check — `none` when the
source's control pointer is null or dangling. -/
def copyCtor (h : Heap) (s : SharedPtrS) : Option (Heap × SharedPtrS) :=
  match s.counter with
  | none => none
  | some a =>
    (h.read a).map fun c =>
      (h.write a (some ⟨c.shared_count_ + 1, c.weak_count_⟩), ⟨s.ptr_, some a⟩)

/-- `SharedPtr::DecreaseAndDelete` (lines 51-64): null counter is a no-op;
otherwise decrement `shared_count_` if positive; if both counts are zero,
`delete counter; delete ptr_;` (in that source order); else if the strong
count is zero, `delete ptr_` only.  Returns the new heap and the list of
teardown events in execution order (`delete ptr_` on a null pointer destroys
nothing and emits no event).  `none` when the block is dangling. -/
def DecreaseAndDelete (h : Heap) (s : SharedPtrS) : Option (Heap × List Event) :=
  match s.counter with
  | none => some (h, [])
  | some a =>
    match h.read a with
    | none => none
    | some c =>
      let c1 := if 0 < c.shared_count_ then c.shared_count_ - 1 else c.shared_count_
      if c1 = 0 ∧ c.weak_count_ = 0 then
        some (h.free a,
          [Event.freeBlock] ++ (if s.ptr_.isSome then [Event.destroyObject] else []))
      else if c1 = 0 then
        some (h.write a (some ⟨c1, c.weak_count_⟩),
          if s.ptr_.isSome then [Event.destroyObject] else [])
      else
        some (h.write a (some ⟨c1, c.weak_count_⟩), [])

/-- `SharedPtr::operator=(const SharedPtr&)` for distinct objects
(lines 68-77; the `this == &other` early return is a separate no-op):
release the old share via `DecreaseAndDelete`, copy both pointers, then
`if (counter) ++counter->shared_count_` — the source IS null-guarded here. -/
def assignCopy (h : Heap) (dst src : SharedPtrS) : Option (Heap × SharedPtrS) :=
  match DecreaseAndDelete h dst with
  | none => none
  | some (h1, _) =>
    match src.counter with
    | none => some (h1, ⟨src.ptr_, none⟩)
    | some a =>
      match h1.read a with
      | none => none
      | some c =>
        some (h1.write a (some ⟨c.shared_count_ + 1, c.weak_count_⟩), ⟨src.ptr_, some a⟩)

/-- The move constructor every move construction of a `SharedPtr<T>`
selects: the converting template `SharedPtr(SharedPtr<U>&&)` (lines 36-41)
at `U = T`.  For a non-const `SharedPtr<T>` rvalue it is the exact,
less cv-qualified match, beating the non-template
`SharedPtr(const SharedPtr&&)` (lines 30-34); and instantiating that
non-template (for a const rvalue, its only preferred argument) is
ill-formed — its body writes `other.counter`/`other.ptr_` through the
const reference — so lines 36-41 are the executed path.  It copies both
pointers, nulls the source's, and never touches the control block (visible
in the type: no heap is threaded).  Returns (constructed handle, moved-from
source). -/
def moveCtor (src : SharedPtrS) : SharedPtrS × SharedPtrS :=
  (⟨src.ptr_, src.counter⟩, ⟨none, none⟩)

/-- `SharedPtr::operator=(SharedPtr&&)` for distinct objects (lines 79-88;
the `this == &other` early return is a separate no-op): release the
destination's previous share via `DecreaseAndDelete`, take over the
source's pointers, null the source's.  Returns (heap, destination after,
source after); the transferred block itself is never touched. -/
def assignMove (h : Heap) (dst src : SharedPtrS) : Option (Heap × SharedPtrS × SharedPtrS) :=
  match DecreaseAndDelete h dst with
  | none => none
  | some (h1, _) => some (h1, ⟨src.ptr_, src.counter⟩, ⟨none, none⟩)

/-- `SharedPtr::UseCount` (lines 105-109): `0` for a null control pointer,
else the block's `shared_count_`; `none` on a dangling block. -/
def UseCount (h : Heap) (s : SharedPtrS) : Option Nat :=
  match s.counter with
  | none => some 0
  | some a => (h.read a).map (·.shared_count_)

/-- `SharedPtr::operator bool` (line 115): `counter && shared_count_ != 0`;
`none` on a dangling block. -/
def toBool (h : Heap) (s : SharedPtrS) : Option Bool :=
  match s.counter with
  | none => some false
  | some a => (h.read a).map (fun c => !(c.shared_count_ == 0))

end SharedPtr

namespace WeakPtr

/-- `WeakPtr::Expired` (lines 216-220): true when the control pointer is
null, else `shared_count_ == 0`; `none` on a dangling block. -/
def Expired (h : Heap) (w : WeakPtrS) : Option Bool :=
  match w.counter with
  | none => some true
  | some a => (h.read a).map (fun c => c.shared_count_ == 0)

/-- `WeakPtr(const SharedPtr<T>& other)` (lines 151-155): copies both
pointers and performs `if (counter) ++counter->weak_count_` — null-guarded. -/
def fromShared (h : Heap) (s : SharedPtrS) : Option (Heap × WeakPtrS) :=
  match s.counter with
  | none => some (h, ⟨s.ptr_, none⟩)
  | some a =>
    (h.read a).map fun c =>
      (h.write a (some ⟨c.shared_count_, c.weak_count_ + 1⟩), ⟨s.ptr_, some a⟩)

/-- `WeakPtr(T* ptr)` (lines 133-137): allocates a fresh block, sets
`shared_count_ = 0`, and then assigns the nonexistent member `weak_counter_`
instead of `weak_count_`, so `weak_count_` is never initialized on this path.
The indeterminate value the field ends up holding is the `junk` argument. -/
def fromRawWeak (h : Heap) (p : Option Nat) (junk : Nat) : Heap × WeakPtrS :=
  let r := h.alloc ⟨0, junk⟩
  (r.1, ⟨p, some r.2⟩)

/-- `WeakPtr::DecreaseAndDelete` (lines 163-171): null counter is a no-op;
otherwise decrement `weak_count_` if positive; if both counts are zero,
`delete counter`.  Never touches the managed object.  `none` on a dangling
block. -/
def DecreaseAndDelete (h : Heap) (w : WeakPtrS) : Option (Heap × List Event) :=
  match w.counter with
  | none => some (h, [])
  | some a =>
    match h.read a with
    | none => none
    | some c =>
      let w1 := if 0 < c.weak_count_ then c.weak_count_ - 1 else c.weak_count_
      if w1 = 0 ∧ c.shared_count_ = 0 then
        some (h.free a, [Event.freeBlock])
      else
        some (h.write a (some ⟨c.shared_count_, w1⟩), [])

/-- `WeakPtr::Reset` (lines 202-208): null counter is a no-op; otherwise
`--counter->weak_count_` with NO positivity guard (a `size_t` decrement, so
a zero count wraps to `2 ^ 64 - 1`), then the handle's pointers are nulled.
The block is never freed here, whatever the counts. -/
def Reset (h : Heap) (w : WeakPtrS) : Option (Heap × WeakPtrS) :=
  match w.counter with
  | none => some (h, w)
  | some a =>
    (h.read a).map fun c =>
      (h.write a (some ⟨c.shared_count_, sizetDec c.weak_count_⟩), ⟨none, none⟩)

/-- `WeakPtr(WeakPtr&& other)` (lines 145-149): copies both pointers, nulls
the source's, and never touches the control block (visible in the type: no
heap is threaded).  Returns (constructed handle, moved-from source).  This
is the constructor every move construction of a `WeakPtr<T>` selects: for a
`WeakPtr<T>` rvalue argument, overload resolution prefers this non-template
exact match over the converting template `WeakPtr(WeakPtr<U>&&)` at
`U = T` (lines 157-161), and any `U ≠ T` use of that template is ill-formed
(its body assigns a `WeakPtr<U>` lvalue to `*this`, and no conversion to
`WeakPtr<T>` exists), so the template is dead code no well-formed program
can execute. -/
def moveCtor (src : WeakPtrS) : WeakPtrS × WeakPtrS :=
  (⟨src.ptr_, src.counter⟩, ⟨none, none⟩)

/-- `WeakPtr::operator=(WeakPtr&&)` for distinct objects (lines 186-195;
the `this == &other` early return is a separate no-op): release the
destination's previous share via `DecreaseAndDelete`, take over the
source's pointers, null the source's.  Returns (heap, destination after,
source after); the transferred block itself is never touched. -/
def assignMove (h : Heap) (dst src : WeakPtrS) : Option (Heap × WeakPtrS × WeakPtrS) :=
  match DecreaseAndDelete h dst with
  | none => none
  | some (h1, _) => some (h1, ⟨src.ptr_, src.counter⟩, ⟨none, none⟩)

/-- `WeakPtr::UseCount` (lines 210-214): `0` for a null control pointer,
else the block's `shared_count_`; `none` on a dangling block. -/
def UseCount (h : Heap) (w : WeakPtrS) : Option Nat :=
  match w.counter with
  | none => some 0
  | some a => (h.read a).map (·.shared_count_)

end WeakPtr

namespace SharedPtr

/-- `SharedPtr(const WeakPtr<T>& other)` (lines 43-49): copies both pointers,
throws `std::bad_weak_ptr` when `other.Expired()`, and otherwise performs the
null-guarded increment of `shared_count_`.  The thrown case returns
`Except.error ()` with the heap untouched (the throw happens before any count
is modified).  `none` on a dangling block. -/
def fromWeakPtr (h : Heap) (w : WeakPtrS) : Option (Heap × Except Unit SharedPtrS) :=
  match WeakPtr.Expired h w with
  | none => none
  | some true => some (h, Except.error ())
  | some false =>
    match w.counter with
    | none => some (h, Except.ok ⟨w.ptr_, none⟩)
    | some a =>
      match h.read a with
      | none => none
      | some c =>
        some (h.write a (some ⟨c.shared_count_ + 1, c.weak_count_⟩),
          Except.ok ⟨w.ptr_, some a⟩)

end SharedPtr

namespace WeakPtr

/-- `WeakPtr::Lock` (lines 222-227): when `Expired()`, `return nullptr`
invokes `SharedPtr(T*)` with a null pointer, allocating a fresh control
block with both counts zero; otherwise it builds `SharedPtr<T> ptr(*this)`
through the promoting constructor (whose throw branch is unreachable here,
the expiry check having just returned false). -/
def Lock (h : Heap) (w : WeakPtrS) : Option (Heap × Except Unit SharedPtrS) :=
  match Expired h w with
  | none => none
  | some true =>
    let r := SharedPtr.fromRaw h none
    some (r.1, Except.ok r.2)
  | some false => SharedPtr.fromWeakPtr h w

end WeakPtr

/-!
Per-ownership-group trace machine.  One `GState` tracks a single control
block: its two counters, the number of live strong and weak handles attached
to it, whether the group's raw pointer is null, liveness flags for the
managed object and the block, and how many times `delete ptr_` (with a
non-null pointer) and `delete counter` have executed.

The op alphabet covers every operation of the API a well-formed program can
execute against this group's control block.  Moves, swaps, and
self-assignments never touch the counters and only relabel which handle
variable holds the share, so they are a single no-op (the move operations
that overload resolution can actually select — `SharedPtr(SharedPtr<U>&&)`,
`WeakPtr(WeakPtr&&)`, and both move assignments — access no counter; the
converting template `WeakPtr(WeakPtr<U>&&)` is dead code, losing overload
resolution at `U = T` and ill-formed at `U ≠ T`).  The raw-pointer
constructor `WeakPtr(T*)` (claim C8) names a nonexistent member and so
cannot be instantiated; it creates its own group in any case and is
modelled separately above.
-/

/-- Defined-behaviour operations on one ownership group. -/
inductive Op where
  /-- `SharedPtr` copy constructor, or the acquiring half of copy assignment,
  from a live strong handle of this group (lines 25-28, 72-75). -/
  | copyStrong
  /-- Successful promotion of a weak handle of this group: `Lock()` on a
  non-expired handle or `SharedPtr(const WeakPtr&)` without throw
  (lines 43-49, 222-227). -/
  | promoteOk
  /-- Attempted promotion of an expired weak handle: `SharedPtr(const
  WeakPtr&)` throws, or `Lock()` returns an empty handle from a fresh
  block; either way this group's block is untouched. -/
  | promoteFail
  /-- `SharedPtr::DecreaseAndDelete` with the handle then detaching:
  destructor, `Reset`, or the releasing half of assignment (lines 51-64). -/
  | strongRelease
  /-- `WeakPtr(const SharedPtr&)` from a live strong handle (lines 151-155). -/
  | weakFromStrong
  /-- `WeakPtr` copy constructor or the acquiring half of weak copy
  assignment, from a live weak handle (lines 139-143, 179-182). -/
  | weakCopy
  /-- `WeakPtr::DecreaseAndDelete` with the handle then detaching:
  destructor or the releasing half of weak assignment (lines 163-171). -/
  | weakRelease
  /-- `WeakPtr::Reset` (lines 202-208). -/
  | weakReset
  /-- Moves, swaps, self-assignments: no counter access. -/
  | noOp
deriving DecidableEq

/-- State of one ownership group. -/
structure GState where
  /-- `counter->shared_count_`. -/
  shared : Nat
  /-- `counter->weak_count_`. -/
  weak : Nat
  /-- Number of live `SharedPtr` handles whose `counter` points at this
  group's block. -/
  sh : Nat
  /-- Number of live `WeakPtr` handles whose `counter` points at this
  group's block. -/
  wh : Nat
  /-- Whether the group's managed-object pointer is null. -/
  ptrIsNull : Bool
  /-- Whether the managed object is still allocated. -/
  objAlive : Bool
  /-- Whether the control block is still allocated. -/
  blockAlive : Bool
  /-- Number of times `delete ptr_` has executed with a non-null `ptr_`. -/
  objFrees : Nat
  /-- Number of times `delete counter` has executed. -/
  blockFrees : Nat
deriving DecidableEq

/-- Group state after `SharedPtr(T* p)` with `p` non-null (lines 20-23):
counts `{1, 0}`, one strong handle, object and block allocated. -/
def initState : GState :=
  ⟨1, 0, 1, 0, false, true, true, 0, 0⟩

/-- Group state after `SharedPtr(T* p)` with `p == nullptr` (lines 20-23):
counts `{0, 0}`, one live strong handle, no managed object. -/
def initStateNull : GState :=
  ⟨0, 0, 1, 0, true, false, true, 0, 0⟩

/-- Enabledness of an operation: the handle it runs through must exist, the
block must not have been freed, and a promotion takes its success branch
exactly when the strong count is positive. -/
def pre (s : GState) (op : Op) : Bool :=
  match op with
  | .copyStrong => s.sh != 0 && s.blockAlive
  | .promoteOk => s.wh != 0 && s.blockAlive && s.shared != 0
  | .promoteFail => s.wh != 0 && s.blockAlive && s.shared == 0
  | .strongRelease => s.sh != 0 && s.blockAlive
  | .weakFromStrong => s.sh != 0 && s.blockAlive
  | .weakCopy => s.wh != 0 && s.blockAlive
  | .weakRelease => s.wh != 0 && s.blockAlive
  | .weakReset => s.wh != 0 && s.blockAlive
  | .noOp => true

/-- Effect of an operation on the group, following the cited source lines
verbatim (guarded decrements where the source guards, the unguarded
`size_t` decrement in `WeakPtr::Reset`, and `delete` exactly on the source's
branches; `delete ptr_` on a null pointer destroys nothing). -/
def step (s : GState) (op : Op) : GState :=
  match op with
  | .copyStrong => { s with shared := s.shared + 1, sh := s.sh + 1 }
  | .promoteOk => { s with shared := s.shared + 1, sh := s.sh + 1 }
  | .promoteFail => s
  | .strongRelease =>
    let c1 := if 0 < s.shared then s.shared - 1 else s.shared
    if c1 = 0 ∧ s.weak = 0 then
      { s with
        shared := c1
        sh := s.sh - 1
        blockAlive := false
        blockFrees := s.blockFrees + 1
        objAlive := false
        objFrees := s.objFrees + (if s.ptrIsNull then 0 else 1) }
    else if c1 = 0 then
      { s with
        shared := c1
        sh := s.sh - 1
        objAlive := false
        objFrees := s.objFrees + (if s.ptrIsNull then 0 else 1) }
    else
      { s with shared := c1, sh := s.sh - 1 }
  | .weakFromStrong => { s with weak := s.weak + 1, wh := s.wh + 1 }
  | .weakCopy => { s with weak := s.weak + 1, wh := s.wh + 1 }
  | .weakRelease =>
    let w1 := if 0 < s.weak then s.weak - 1 else s.weak
    if w1 = 0 ∧ s.shared = 0 then
      { s with
        weak := w1
        wh := s.wh - 1
        blockAlive := false
        blockFrees := s.blockFrees + 1 }
    else
      { s with weak := w1, wh := s.wh - 1 }
  | .weakReset => { s with weak := sizetDec s.weak, wh := s.wh - 1 }
  | .noOp => s

/-- Run a trace of operations from a state. -/
def runFrom : GState → List Op → GState
  | s, [] => s
  | s, op :: t => runFrom (step s op) t

/-- A trace is valid from a state when every operation's precondition holds
at the state it executes in. -/
def validFrom : GState → List Op → Bool
  | _, [] => true
  | s, op :: t => pre s op && validFrom (step s op) t

/-- Invariant of a group created by `SharedPtr(T*)` with a non-null pointer:
the block's counts equal the numbers of live attached handles; the object is
alive exactly while the strong count is positive; the block is only ever
freed with both counts at zero; each resource has been freed at most once,
and exactly once when its liveness flag is down. -/
def GInv (s : GState) : Prop :=
  s.shared = s.sh ∧
  s.weak = s.wh ∧
  s.ptrIsNull = false ∧
  (s.objAlive = true ↔ 0 < s.shared) ∧
  s.objFrees = (if s.objAlive = true then 0 else 1) ∧
  (s.blockAlive = false → s.shared = 0 ∧ s.weak = 0) ∧
  s.blockFrees = (if s.blockAlive = true then 0 else 1)

theorem sizetDec_of_pos {w : Nat} (h1 : 0 < w) (h2 : w < size_t_mod) :
    sizetDec w = w - 1 := by
  simp only [sizetDec, size_t_mod] at *
  omega

theorem inv_init : GInv initState := by
  simp [GInv, initState]

theorem step_inv {s : GState} {op : Op} (hp : pre s op = true) (hI : GInv s)
    (hw : s.weak < size_t_mod) : GInv (step s op) := by
  obtain ⟨sc, wc, nsh, nwh, pn, oa, ba, nof, nbf⟩ := s
  obtain ⟨h1, h2, h3, h4, h5, h6, h7⟩ := hI
  dsimp only at h1 h2 h3 h4 h5 h6 h7 hw
  subst h3
  cases op
  case copyStrong =>
    simp only [pre, Bool.and_eq_true, bne_iff_ne, ne_eq, beq_iff_eq] at hp
    obtain ⟨hp1, hp2⟩ := hp
    subst hp2
    have hoa : oa = true := h4.mpr (by omega)
    subst hoa
    simp only [step, GInv]
    simp_all <;> omega
  case promoteOk =>
    simp only [pre, Bool.and_eq_true, bne_iff_ne, ne_eq, beq_iff_eq] at hp
    obtain ⟨⟨hp1, hp2⟩, hp3⟩ := hp
    subst hp2
    have hoa : oa = true := h4.mpr (by omega)
    subst hoa
    simp only [step, GInv]
    simp_all <;> omega
  case promoteFail =>
    exact ⟨h1, h2, rfl, h4, h5, h6, h7⟩
  case strongRelease =>
    simp only [pre, Bool.and_eq_true, bne_iff_ne, ne_eq, beq_iff_eq] at hp
    obtain ⟨hp1, hp2⟩ := hp
    subst hp2
    have hsc : 0 < sc := by omega
    have hoa : oa = true := h4.mpr hsc
    subst hoa
    simp only [step, GInv]
    rw [if_pos hsc]
    by_cases hz : sc - 1 = 0
    · by_cases hwz : wc = 0
      · rw [if_pos ⟨hz, hwz⟩]
        simp_all <;> omega
      · rw [if_neg (by tauto), if_pos hz]
        simp_all <;> omega
    · rw [if_neg (by tauto), if_neg hz]
      simp_all <;> omega
  case weakFromStrong =>
    simp only [pre, Bool.and_eq_true, bne_iff_ne, ne_eq, beq_iff_eq] at hp
    obtain ⟨hp1, hp2⟩ := hp
    subst hp2
    simp only [step, GInv]
    simp_all <;> omega
  case weakCopy =>
    simp only [pre, Bool.and_eq_true, bne_iff_ne, ne_eq, beq_iff_eq] at hp
    obtain ⟨hp1, hp2⟩ := hp
    subst hp2
    simp only [step, GInv]
    simp_all <;> omega
  case weakRelease =>
    simp only [pre, Bool.and_eq_true, bne_iff_ne, ne_eq, beq_iff_eq] at hp
    obtain ⟨hp1, hp2⟩ := hp
    subst hp2
    have hwc : 0 < wc := by omega
    simp only [step, GInv]
    rw [if_pos hwc]
    by_cases hz : wc - 1 = 0 ∧ sc = 0
    · rw [if_pos hz]
      have hoa : oa = false := by
        cases oa
        · rfl
        · exact absurd (h4.mp rfl) (by omega)
      subst hoa
      simp_all <;> omega
    · rw [if_neg hz]
      simp_all <;> omega
  case weakReset =>
    simp only [pre, Bool.and_eq_true, bne_iff_ne, ne_eq, beq_iff_eq] at hp
    obtain ⟨hp1, hp2⟩ := hp
    subst hp2
    have hwc : 0 < wc := by omega
    simp only [step, GInv]
    rw [sizetDec_of_pos hwc hw]
    simp_all <;> omega
  case noOp =>
    exact ⟨h1, h2, rfl, h4, h5, h6, h7⟩

theorem step_handles_le (s : GState) (op : Op) :
    (step s op).sh + (step s op).wh ≤ s.sh + s.wh + 1 := by
  obtain ⟨sc, wc, nsh, nwh, pn, oa, ba, nof, nbf⟩ := s
  cases op
  case strongRelease =>
    simp only [step]
    split_ifs <;> simp <;> omega
  case weakRelease =>
    simp only [step]
    split_ifs <;> simp <;> omega
  all_goals simp [step] <;> omega

theorem runFrom_inv (t : List Op) (s : GState) (hI : GInv s)
    (hv : validFrom s t = true) (hb : s.sh + s.wh + t.length ≤ size_t_mod) :
    GInv (runFrom s t) := by
  induction t generalizing s with
  | nil => exact hI
  | cons op r ih =>
    simp only [validFrom, Bool.and_eq_true] at hv
    have hw : s.weak < size_t_mod := by
      have := hI.2.1
      simp only [List.length_cons] at hb
      omega
    refine ih (step s op) (step_inv hv.1 hI hw) hv.2 ?_
    have := step_handles_le s op
    simp only [List.length_cons] at hb
    omega

theorem runFrom_append (t1 t2 : List Op) (s : GState) :
    runFrom s (t1 ++ t2) = runFrom (runFrom s t1) t2 := by
  induction t1 generalizing s with
  | nil => rfl
  | cons op r ih =>
    simp only [List.cons_append, runFrom, List.append_eq]
    exact ih (step s op)

theorem validFrom_append (t1 t2 : List Op) (s : GState) :
    validFrom s (t1 ++ t2) = (validFrom s t1 && validFrom (runFrom s t1) t2) := by
  induction t1 generalizing s with
  | nil => simp [validFrom, runFrom]
  | cons op r ih =>
    simp only [List.cons_append, validFrom, runFrom, List.append_eq]
    rw [ih (step s op), Bool.and_assoc]

/-- A step destroys the managed object exactly when it is a strong-handle
release taken at strong count 1 (in an invariant state of a non-null
group). -/
theorem step_objFrees {s : GState} {op : Op} (hp : pre s op = true)
    (hI : GInv s) :
    (step s op).objFrees = s.objFrees + 1 ↔ (op = Op.strongRelease ∧ s.shared = 1) := by
  obtain ⟨sc, wc, nsh, nwh, pn, oa, ba, nof, nbf⟩ := s
  obtain ⟨h1, h2, h3, h4, h5, h6, h7⟩ := hI
  dsimp only at h1 h2 h3 h4 h5 h6 h7
  subst h3
  cases op
  case strongRelease =>
    simp only [pre, Bool.and_eq_true, bne_iff_ne, ne_eq, beq_iff_eq] at hp
    obtain ⟨hp1, hp2⟩ := hp
    have hsc : 0 < sc := by omega
    simp only [step]
    rw [if_pos hsc]
    by_cases hz : sc - 1 = 0
    · by_cases hwz : wc = 0
      · rw [if_pos ⟨hz, hwz⟩]
        simp
        omega
      · rw [if_neg (by tauto), if_pos hz]
        simp
        omega
    · rw [if_neg (by tauto), if_neg hz]
      simp
      omega
  all_goals (simp only [step]; (try split_ifs) <;> simp <;> omega)

/-- A step never destroys the object more than once, and never undoes a
destruction: `objFrees` either stays or increments by exactly one. -/
theorem step_objFrees_mono {s : GState} {op : Op} :
    (step s op).objFrees = s.objFrees ∨ (step s op).objFrees = s.objFrees + 1 := by
  obtain ⟨sc, wc, nsh, nwh, pn, oa, ba, nof, nbf⟩ := s
  cases op
  all_goals (simp only [step]; (try split_ifs) <;> simp <;> omega)

theorem Heap.read_lt {h : Heap} {a : Nat} {c : Counter}
    (hr : Heap.read h a = some c) : a < h.length := by
  induction h generalizing a with
  | nil => simp [Heap.read] at hr
  | cons x t ih =>
    cases a with
    | zero => simp
    | succ n =>
      simp only [Heap.read] at hr
      simpa using ih hr

theorem Heap.read_write_self {h : Heap} {a : Nat} (c : Option Counter)
    (hlt : a < h.length) : Heap.read (Heap.write h a c) a = c := by
  induction h generalizing a with
  | nil => simp at hlt
  | cons x t ih =>
    cases a with
    | zero => rfl
    | succ n =>
      simp only [Heap.write, Heap.read]
      exact ih (by simpa using hlt)

theorem Heap.read_concat (h : Heap) (c : Option Counter) :
    Heap.read (h ++ [c]) h.length = c := by
  induction h with
  | nil => rfl
  | cons x t ih => simpa [Heap.read] using ih

/-- C2: the control block is leaked, not freed, when the last release of the
group is a `WeakPtr::Reset`.  After constructing one strong handle over a
fresh object, attaching one weak handle, destroying the strong handle
(which destroys the object), and then calling `Reset()` on the weak handle,
both counts are zero and no handle remains, yet `delete counter` has never
executed (`blockFrees = 0`, `blockAlive = true`): `Reset` decrements the
weak count but, unlike `WeakPtr::DecreaseAndDelete`, never frees the block. -/
theorem c2_control_block_leaked_by_last_weak_reset :
    validFrom initState [Op.weakFromStrong, Op.strongRelease, Op.weakReset] = true ∧
    runFrom initState [Op.weakFromStrong, Op.strongRelease, Op.weakReset] =
      ⟨0, 0, 0, 0, false, false, true, 1, 0⟩ := by
  decide

/-- C5 counterexample: a `SharedPtr` constructed from a null raw pointer is
one live strong handle attached to its group, yet the block's strong count
(what `UseCount()` returns) is `0`, not `1` — so, for that group, `UseCount`
does not equal the number of live strong handles even before any further
operation. -/
theorem c5_null_group_usecount_counterexample :
    (runFrom initStateNull []).shared ≠ (runFrom initStateNull []).sh := by
  decide

/-- C6: every move construction and move assignment a well-formed program
can execute transfers the ownership share without changing any control
block's counts and leaves the moved-from handle empty (null object pointer,
null control pointer).  The move constructors overload resolution selects —
`SharedPtr(SharedPtr<U>&&)` for `SharedPtr` and the non-template
`WeakPtr(WeakPtr&&)` for `WeakPtr` — perform no heap access at all, the
result shares exactly the source's block, and the strong count any handle
reads through it is unchanged; move assignment into an empty destination
(isolating the transfer from the destination's release of its previous
share) returns the heap, hence every count, untouched. -/
theorem c6_executable_moves_keep_counts_and_empty_source :
    (∀ h s, (SharedPtr.moveCtor s).1.counter = s.counter ∧
      (SharedPtr.moveCtor s).2 = ⟨none, none⟩ ∧
      SharedPtr.UseCount h (SharedPtr.moveCtor s).1 = SharedPtr.UseCount h s) ∧
    (∀ h w, (WeakPtr.moveCtor w).1.counter = w.counter ∧
      (WeakPtr.moveCtor w).2 = ⟨none, none⟩ ∧
      WeakPtr.UseCount h (WeakPtr.moveCtor w).1 = WeakPtr.UseCount h w) ∧
    (∀ h q s, SharedPtr.assignMove h ⟨q, none⟩ s =
      some (h, ⟨s.ptr_, s.counter⟩, ⟨none, none⟩)) ∧
    (∀ h q w, WeakPtr.assignMove h ⟨q, none⟩ w =
      some (h, ⟨w.ptr_, w.counter⟩, ⟨none, none⟩)) :=
  ⟨fun _ _ => ⟨rfl, rfl, rfl⟩, fun _ _ => ⟨rfl, rfl, rfl⟩,
   fun _ _ _ => rfl, fun _ _ _ => rfl⟩

/-- C7: `WeakPtr::Reset` on a handle whose block holds weak count `0`
decrements without a positivity guard, wrapping the `size_t` counter to
`2 ^ 64 - 1` instead of leaving it at `0`. -/
theorem c7_weak_reset_wraps_zero_count :
    WeakPtr.Reset [some ⟨0, 0⟩] ⟨some 0, some 0⟩ =
      some ([some ⟨0, size_t_mod - 1⟩], ⟨none, none⟩) ∧
    size_t_mod - 1 ≠ 0 := by
  constructor
  · rfl
  · decide

/-- C8: the `WeakPtr(T*)` constructor writes the nonexistent field
`weak_counter_`, so the block's `weak_count_` keeps whatever indeterminate
value the allocation held (here `7`), not the documented `1` for a non-null
pointer; only `shared_count_` is initialized (to `0`). -/
theorem c8_weak_from_raw_leaves_weak_count_junk :
    (WeakPtr.fromRawWeak [] (some 0) 7).1 = [some ⟨0, 7⟩] ∧ (7 : Nat) ≠ 1 := by
  decide

/-- C9 counterexample: releasing the last strong handle of a group with no
weak observers executes `delete counter` BEFORE `delete ptr_` — the event
order is block first, object second, not object first. -/
theorem c9_teardown_order_counterexample :
    SharedPtr.DecreaseAndDelete [some ⟨1, 0⟩] ⟨some 5, some 0⟩ =
      some ([none], [Event.freeBlock, Event.destroyObject]) ∧
    [Event.freeBlock, Event.destroyObject] ≠ [Event.destroyObject, Event.freeBlock] := by
  decide

/-- C3: `WeakPtr::Lock` on a non-expired handle (attached to a live block
with positive strong count) returns, without throwing, a `SharedPtr` over
the SAME control block, whose `UseCount()` is exactly one more than the
strong count before the call; on an expired handle it returns a falsy
`SharedPtr` and does not throw (no `Except.error` in either branch). -/
theorem c3_lock_promotes_or_returns_falsy (h : Heap) (w : WeakPtrS) :
    (∀ a c, w.counter = some a → Heap.read h a = some c → 0 < c.shared_count_ →
      WeakPtr.Lock h w =
        some (Heap.write h a (some ⟨c.shared_count_ + 1, c.weak_count_⟩),
          Except.ok ⟨w.ptr_, some a⟩) ∧
      SharedPtr.UseCount (Heap.write h a (some ⟨c.shared_count_ + 1, c.weak_count_⟩))
        ⟨w.ptr_, some a⟩ = some (c.shared_count_ + 1)) ∧
    (WeakPtr.Expired h w = some true →
      ∃ h1 r, WeakPtr.Lock h w = some (h1, Except.ok r) ∧
        SharedPtr.toBool h1 r = some false) := by
  constructor
  · intro a c hwc hr hpos
    have hE : WeakPtr.Expired h w = some false := by
      simp [WeakPtr.Expired, hwc, hr]
      omega
    constructor
    · simp [WeakPtr.Lock, hE, SharedPtr.fromWeakPtr, hwc, hr]
    · simp [SharedPtr.UseCount, Heap.read_write_self _ (Heap.read_lt hr)]
  · intro hE
    refine ⟨h ++ [some ⟨0, 0⟩], ⟨none, some h.length⟩, ?_, ?_⟩
    · simp [WeakPtr.Lock, hE, SharedPtr.fromRaw, Heap.alloc]
    · simp [SharedPtr.toBool, Heap.read_concat]

theorem c3_lock_witness :
    (WeakPtr.Lock [some ⟨2, 1⟩] ⟨some 0, some 0⟩ =
      some ([some ⟨3, 1⟩], Except.ok ⟨some 0, some 0⟩) ∧
     SharedPtr.UseCount [some ⟨3, 1⟩] ⟨some 0, some 0⟩ = some 3) ∧
    (∃ h1 r, WeakPtr.Lock [some ⟨0, 1⟩] ⟨some 0, some 0⟩ = some (h1, Except.ok r) ∧
      SharedPtr.toBool h1 r = some false) :=
  ⟨(c3_lock_promotes_or_returns_falsy [some ⟨2, 1⟩] ⟨some 0, some 0⟩).1
      0 ⟨2, 1⟩ rfl rfl (by decide),
   (c3_lock_promotes_or_returns_falsy [some ⟨0, 1⟩] ⟨some 0, some 0⟩).2 (by decide)⟩

/-- C4: constructing a `SharedPtr` directly from an expired `WeakPtr`
raises the expired-reference error (`std::bad_weak_ptr`) synchronously, and
the heap — hence the source's strong and weak counts — is returned exactly
as it was: the throw happens before any increment. -/
theorem c4_expired_promotion_throws_counts_unchanged (h : Heap) (w : WeakPtrS)
    (hE : WeakPtr.Expired h w = some true) :
    SharedPtr.fromWeakPtr h w = some (h, Except.error ()) := by
  simp [SharedPtr.fromWeakPtr, hE]

theorem c4_expired_promotion_witness :
    WeakPtr.Expired [some ⟨0, 1⟩] ⟨some 0, some 0⟩ = some true ∧
    SharedPtr.fromWeakPtr [some ⟨0, 1⟩] ⟨some 0, some 0⟩ =
      some ([some ⟨0, 1⟩], Except.error ()) :=
  ⟨by decide,
   c4_expired_promotion_throws_counts_unchanged [some ⟨0, 1⟩] ⟨some 0, some 0⟩ (by decide)⟩

/-- C9 amended: in every release that tears down both resources (the
strong-handle release finding both counts zero after its decrement, with a
non-null object pointer), the control block is freed FIRST and the managed
object destroyed SECOND — the source order `delete counter; delete ptr_;`,
the reverse of object-first. -/
theorem c9_block_freed_before_object (h : Heap) (s : SharedPtrS) (a : Nat)
    (c : Counter) (hc : s.counter = some a) (hr : Heap.read h a = some c)
    (hp : s.ptr_.isSome = true) (h1 : c.shared_count_ ≤ 1) (h2 : c.weak_count_ = 0) :
    SharedPtr.DecreaseAndDelete h s =
      some (Heap.free h a, [Event.freeBlock, Event.destroyObject]) := by
  have hz : (if 0 < c.shared_count_ then c.shared_count_ - 1 else c.shared_count_) = 0 := by
    split_ifs <;> omega
  simp [SharedPtr.DecreaseAndDelete, hc, hr, hz, h2, hp]

theorem c9_block_freed_before_object_witness :
    SharedPtr.DecreaseAndDelete [some ⟨1, 0⟩] ⟨some 7, some 0⟩ =
      some ([none], [Event.freeBlock, Event.destroyObject]) :=
  c9_block_freed_before_object [some ⟨1, 0⟩] ⟨some 7, some 0⟩ 0 ⟨1, 0⟩
    rfl rfl rfl (by decide) rfl

/-- C10: the `SharedPtr` copy constructor increments through its source's
control pointer with no null guard, so it is total only when the source has
a non-null control block (it crashes on an empty source), whereas copy
assignment and the `WeakPtr`-from-`SharedPtr` conversion both guard the
null-control case and succeed on an empty source. -/
theorem c10_copy_ctor_requires_control_block :
    (∀ h p, SharedPtr.copyCtor h ⟨p, none⟩ = none) ∧
    (∀ h a c p, Heap.read h a = some c →
      SharedPtr.copyCtor h ⟨p, some a⟩ =
        some (Heap.write h a (some ⟨c.shared_count_ + 1, c.weak_count_⟩), ⟨p, some a⟩)) ∧
    (∀ h p q, SharedPtr.assignCopy h ⟨q, none⟩ ⟨p, none⟩ = some (h, ⟨p, none⟩)) ∧
    (∀ h p, WeakPtr.fromShared h ⟨p, none⟩ = some (h, ⟨p, none⟩)) := by
  refine ⟨fun h p => rfl, ?_, fun h p q => rfl, fun h p => rfl⟩
  intro h a c p hr
  simp [SharedPtr.copyCtor, hr]

theorem c10_copy_ctor_witness :
    SharedPtr.copyCtor [] ⟨some 0, none⟩ = none ∧
    SharedPtr.copyCtor [some ⟨1, 0⟩] ⟨some 0, some 0⟩ =
      some ([some ⟨2, 0⟩], ⟨some 0, some 0⟩) ∧
    SharedPtr.assignCopy [] ⟨none, none⟩ ⟨some 0, none⟩ = some ([], ⟨some 0, none⟩) ∧
    WeakPtr.fromShared [] ⟨some 0, none⟩ = some ([], ⟨some 0, none⟩) :=
  ⟨c10_copy_ctor_requires_control_block.1 [] (some 0),
   c10_copy_ctor_requires_control_block.2.1 [some ⟨1, 0⟩] 0 ⟨1, 0⟩ (some 0) rfl,
   c10_copy_ctor_requires_control_block.2.2.1 [] (some 0) none,
   c10_copy_ctor_requires_control_block.2.2.2 [] (some 0)⟩

/-- C1: along every valid sequence of handle operations on a group created
over a non-null object (of any length the `size_t` counters can express),
the managed object is destroyed at most once; it has been destroyed exactly
once precisely when the strong count has reached zero; and a step of the
sequence destroys it exactly when that step is a strong-handle release taken
at strong count 1 — so destruction happens at the 1-to-0 transition of the
strong count, no weak-handle operation ever destroys the object, and the
number of live weak handles at that moment is irrelevant. -/
theorem c1_object_destroyed_once_at_strong_one_to_zero (t : List Op)
    (hv : validFrom initState t = true) (hb : t.length + 1 ≤ size_t_mod) :
    (runFrom initState t).objFrees ≤ 1 ∧
    ((runFrom initState t).objFrees = 1 ↔ (runFrom initState t).shared = 0) ∧
    (∀ p op q, t = p ++ op :: q →
      ((runFrom initState (p ++ [op])).objFrees = (runFrom initState p).objFrees + 1 ↔
        (op = Op.strongRelease ∧ (runFrom initState p).shared = 1))) := by
  have hbi : initState.sh + initState.wh + t.length ≤ size_t_mod := by
    show 1 + 0 + t.length ≤ size_t_mod
    omega
  obtain ⟨i1, i2, i3, i4, i5, i6, i7⟩ := runFrom_inv t initState inv_init hv hbi
  refine ⟨?_, ?_, ?_⟩
  · rw [i5]
    split_ifs <;> omega
  · rw [i5]
    cases hoa : (runFrom initState t).objAlive
    · rw [hoa] at i4
      simp only [Bool.false_eq_true, false_iff, not_lt, Nat.le_zero] at i4
      simp [i4]
    · rw [hoa] at i4
      simp only [true_iff] at i4
      simp
      omega
  · intro p op q ht
    subst ht
    have hsplit := validFrom_append p (op :: q) initState
    rw [hv] at hsplit
    have hand : (validFrom initState p &&
        validFrom (runFrom initState p) (op :: q)) = true := hsplit.symm
    rw [Bool.and_eq_true] at hand
    obtain ⟨hvp, hvq⟩ := hand
    simp only [validFrom, Bool.and_eq_true] at hvq
    obtain ⟨hpre, _⟩ := hvq
    have hbp : initState.sh + initState.wh + p.length ≤ size_t_mod := by
      simp only [List.length_append, List.length_cons] at hb
      show 1 + 0 + p.length ≤ size_t_mod
      omega
    have hIp := runFrom_inv p initState inv_init hvp hbp
    rw [runFrom_append p [op] initState]
    exact step_objFrees hpre hIp

theorem c1_object_destroyed_once_witness :
    validFrom initState [Op.strongRelease] = true ∧
    [Op.strongRelease].length + 1 ≤ size_t_mod ∧
    ((runFrom initState [Op.strongRelease]).objFrees ≤ 1 ∧
     ((runFrom initState [Op.strongRelease]).objFrees = 1 ↔
       (runFrom initState [Op.strongRelease]).shared = 0) ∧
     (∀ p op q, [Op.strongRelease] = p ++ op :: q →
       ((runFrom initState (p ++ [op])).objFrees = (runFrom initState p).objFrees + 1 ↔
         (op = Op.strongRelease ∧ (runFrom initState p).shared = 1)))) :=
  ⟨by decide, by decide,
   c1_object_destroyed_once_at_strong_one_to_zero [Op.strongRelease]
     (by decide) (by decide)⟩

/-- C5 (amended): for a group created from a NON-null raw pointer, after
every valid sequence of operations the block's strong count — the value
`UseCount()` returns through any attached handle — equals the number of
currently-live strong handles sharing the group.  (As stated, the claim
also covered groups constructed from a null raw pointer, where it fails:
see the counterexample.) -/
theorem c5_usecount_equals_live_strong_handles (t : List Op)
    (hv : validFrom initState t = true) (hb : t.length + 1 ≤ size_t_mod) :
    (runFrom initState t).shared = (runFrom initState t).sh := by
  have hbi : initState.sh + initState.wh + t.length ≤ size_t_mod := by
    show 1 + 0 + t.length ≤ size_t_mod
    omega
  exact (runFrom_inv t initState inv_init hv hbi).1

theorem c5_usecount_witness :
    validFrom initState [Op.copyStrong] = true ∧
    (runFrom initState [Op.copyStrong]).shared = (runFrom initState [Op.copyStrong]).sh :=
  ⟨by decide,
   c5_usecount_equals_live_strong_handles [Op.copyStrong] (by decide) (by decide)⟩
